import Mathlib

/- Verification of the FINBOT financial calculation engine against its design
   document.  The Python source (src/PFCB/financial_calculators.py,
   src/PFCB/investment_advisor.py, src/PFCB/budget_tracker.py) is shallowly
   embedded below: real-number arithmetic of the source is modelled exactly
   over ℚ, and a Python ZeroDivisionError is modelled by an Option-valued
   result (none = the exception propagates). -/

/-! ## Compound interest projection (financial_calculators.py, lines 55-87) -/

structure GrowthPoint where
  period : ℕ
  principalValue : ℚ
  contributionValue : ℚ
  totalValue : ℚ
deriving DecidableEq

/-- Body of the per-year loop of `_create_compound_interest_chart`
(financial_calculators.py lines 66-87). -/
def growthPoint (principal monthly_contribution monthly_rate : ℚ) (year : ℕ) : GrowthPoint :=
  let months := year * 12
  if months = 0 then
    ⟨year, principal, 0, principal⟩
  else
    let principal_val := principal * (1 + monthly_rate) ^ months
    let contribution_val :=
      if monthly_rate > 0 then
        monthly_contribution * (((1 + monthly_rate) ^ months - 1) / monthly_rate)
      else
        monthly_contribution * (months : ℚ)
    ⟨year, principal_val, contribution_val, principal_val + contribution_val⟩

/-- `_create_compound_interest_chart` (financial_calculators.py lines 55-87):
the series of chart points for years 0..years inclusive. -/
def create_compound_interest_chart (principal monthly_contribution annual_rate : ℚ)
    (years : ℕ) : List GrowthPoint :=
  (List.range (years + 1)).map
    (growthPoint principal monthly_contribution (annual_rate / 100 / 12))

structure GrowthSummary where
  finalValue : ℚ
  totalContributed : ℚ
  totalInterest : ℚ
  roiPct : ℚ
deriving DecidableEq

/-- The numeric core of `compound_interest_calculator`
(financial_calculators.py lines 28-49).  The source divides by
`total_contributions` with no zero guard, so a zero divisor raises a Python
ZeroDivisionError; that failure is modelled by `none`. -/
def compound_interest_calculator (principal monthly_contribution annual_rate : ℚ)
    (years : ℕ) : Option GrowthSummary :=
  let monthly_rate := annual_rate / 100 / 12
  let total_months := years * 12
  let fv_principal := principal * (1 + monthly_rate) ^ total_months
  let fv_annuity :=
    if monthly_rate > 0 then
      monthly_contribution * (((1 + monthly_rate) ^ total_months - 1) / monthly_rate)
    else
      monthly_contribution * (total_months : ℚ)
  let total_future_value := fv_principal + fv_annuity
  let total_contributions := principal + monthly_contribution * (total_months : ℚ)
  let total_interest := total_future_value - total_contributions
  if total_contributions = 0 then none
  else some ⟨total_future_value, total_contributions, total_interest,
    total_interest / total_contributions * 100⟩

/-! ## Amortization schedule (financial_calculators.py, lines 231-295) -/

structure PaymentRecord where
  month : ℕ
  payment : ℚ
  principal : ℚ
  interest : ℚ
  balance : ℚ
deriving DecidableEq

/-- The schedule loop of `_create_amortization_schedule`
(financial_calculators.py lines 276-295), with the remaining iteration count
first.  The running `monthly_payment` is threaded through the recursion
because the source mutates it in the clamp branch. -/
def amortAux (r : ℚ) : ℕ → ℕ → ℚ → ℚ → List PaymentRecord
  | 0, _, _, _ => []
  | k + 1, month, monthly_payment, balance =>
    let interest_payment := balance * r
    let principal_payment := monthly_payment - interest_payment
    let principal_final := if principal_payment > balance then balance else principal_payment
    let payment_final :=
      if principal_payment > balance then principal_final + interest_payment
      else monthly_payment
    let new_balance := balance - principal_final
    let entry : PaymentRecord := ⟨month, payment_final, principal_final,
      interest_payment, new_balance⟩
    if new_balance ≤ 0 then [entry]
    else entry :: amortAux r k (month + 1) payment_final new_balance

/-- `_create_amortization_schedule` (financial_calculators.py lines 267-295). -/
def create_amortization_schedule (loan_amount interest_rate : ℚ) (loan_term : ℕ)
    (monthly_payment : ℚ) : List PaymentRecord :=
  amortAux (interest_rate / 100 / 12) (loan_term * 12) 1 monthly_payment loan_amount

/-- The level-payment computation of `loan_calculator`
(financial_calculators.py lines 244-251). -/
def loan_monthly_payment (loan_amount interest_rate : ℚ) (loan_term : ℕ) : ℚ :=
  let monthly_rate := interest_rate / 100 / 12
  let total_payments := loan_term * 12
  if monthly_rate > 0 then
    loan_amount * (monthly_rate * (1 + monthly_rate) ^ total_payments) /
      ((1 + monthly_rate) ^ total_payments - 1)
  else
    loan_amount / (total_payments : ℚ)

/-- The spec operation `buildSchedule`: `loan_calculator` computes the level
payment and hands it to `_create_amortization_schedule`
(financial_calculators.py lines 264-265). -/
def buildSchedule (loan_amount interest_rate : ℚ) (loan_term : ℕ) : List PaymentRecord :=
  create_amortization_schedule loan_amount interest_rate loan_term
    (loan_monthly_payment loan_amount interest_rate loan_term)

/-- The remaining balances of a schedule are non-increasing, starting from the
given opening balance. -/
def balancesChain : ℚ → List PaymentRecord → Prop
  | _, [] => True
  | b, e :: rest => e.balance ≤ b ∧ balancesChain e.balance rest

/-- Each record follows the source recurrence for the given level payment:
interest on the running balance, principal as payment minus interest with the
final-period clamp, balance reduced by the principal, and emission stopping as
soon as the balance reaches zero. -/
def followsRecurrence (monthly_payment r : ℚ) : ℚ → List PaymentRecord → Prop
  | _, [] => True
  | b, e :: rest =>
    e.interest = b * r ∧
    ((monthly_payment - b * r > b ∧ e.principal = b ∧
        e.payment = e.principal + e.interest) ∨
     (¬ monthly_payment - b * r > b ∧ e.principal = monthly_payment - b * r ∧
        e.payment = monthly_payment)) ∧
    e.balance = b - e.principal ∧
    (e.balance ≤ 0 → rest = []) ∧
    followsRecurrence monthly_payment r e.balance rest

/-! ## Portfolio recommendation (investment_advisor.py, lines 14-33 and 75-91) -/

inductive RiskProfile
  | conservative
  | moderate
  | aggressive
deriving DecidableEq

/-- Base stock share of `self.risk_profiles` (investment_advisor.py lines 14-33). -/
def baseStocks : RiskProfile → ℤ
  | .conservative => 30
  | .moderate => 50
  | .aggressive => 70

/-- Base bond share of `self.risk_profiles` (investment_advisor.py lines 14-33). -/
def baseBonds : RiskProfile → ℤ
  | .conservative => 60
  | .moderate => 40
  | .aggressive => 20

/-- Base cash share of `self.risk_profiles` (investment_advisor.py lines 14-33). -/
def baseCash : RiskProfile → ℤ
  | .conservative => 10
  | .moderate => 10
  | .aggressive => 10

/-- The age-based adjustment of `_get_portfolio_recommendation`
(investment_advisor.py lines 81-87). -/
def stock_adjustment (age : ℕ) : ℤ :=
  if age < 30 then 10 else if age < 50 then 0 else -10

structure Allocation where
  stocks : ℤ
  bonds : ℤ
  cash : ℤ
deriving DecidableEq

/-- The allocation computation of `_get_portfolio_recommendation`
(investment_advisor.py lines 89-91): clamp the adjusted stock share to
[20, 80], keep the base cash share, recompute bonds as the remainder. -/
def get_portfolio_recommendation (p : RiskProfile) (age : ℕ) : Allocation :=
  let stocks := max 20 (min 80 (baseStocks p + stock_adjustment age))
  ⟨stocks, 100 - stocks - baseCash p, baseCash p⟩

/-! ## Budget summary (budget_tracker.py, lines 296-310) -/

structure Transaction where
  date : String
  category : String
  amount : ℚ
  description : String
deriving DecidableEq

structure BudgetSummary where
  total : ℚ
  categories : List (String × ℚ)
  count : ℕ
deriving DecidableEq

/-- Per-category sums of `df.groupby('category')['amount'].sum()`
(budget_tracker.py line 303), as an association list keyed by first
occurrence. -/
def categoryTotals (budget_data : List Transaction) : List (String × ℚ) :=
  ((budget_data.map Transaction.category).eraseDups).map
    (fun c => (c, ((budget_data.filter (fun t => t.category == c)).map
      Transaction.amount).sum))

/-- `get_budget_summary` (budget_tracker.py lines 296-310) over a snapshot of
the session ledger: an empty (or absent) ledger yields the zero summary. -/
def get_budget_summary (budget_data : List Transaction) : BudgetSummary :=
  if budget_data.isEmpty then ⟨0, [], 0⟩
  else ⟨(budget_data.map Transaction.amount).sum, categoryTotals budget_data,
    budget_data.length⟩

/-! ## Claims C9, C5, C3 -/

/-- C9: `BudgetAggregator.summarize` applied to an empty transaction sequence
returns a summary with total 0, an empty category map and count 0, and does
not raise an error (the function is total). -/
theorem C9_empty_budget_summary :
    get_budget_summary [] = ⟨0, [], 0⟩ := rfl

/-- C5: for every risk profile and age, the recommended allocation satisfies
stocks + bonds + cash = 100 exactly and 20 ≤ stocks ≤ 80. -/
theorem C5_allocation_invariant (p : RiskProfile) (age : ℕ) :
    (get_portfolio_recommendation p age).stocks +
      (get_portfolio_recommendation p age).bonds +
      (get_portfolio_recommendation p age).cash = 100 ∧
    20 ≤ (get_portfolio_recommendation p age).stocks ∧
    (get_portfolio_recommendation p age).stocks ≤ 80 := by
  cases p <;>
    · simp only [get_portfolio_recommendation, stock_adjustment, baseStocks, baseCash]
      split_ifs <;> refine ⟨by ring, by decide, by decide⟩

/-- C3: the recommendation adds 10 to the base stock share for age < 30, 0 for
30 ≤ age < 50, subtracts 10 for age ≥ 50, clamps the stock share to [20, 80],
holds cash at the base profile value and recomputes bonds as the remainder;
the base table is conservative 30/60/10, moderate 50/40/10, aggressive
70/20/10; in particular aggressive at 25 gives 80/10/10 and conservative at
60 gives 20/70/10. -/
theorem C3_recommendation_rule (p : RiskProfile) (age : ℕ) :
    (age < 30 →
      (get_portfolio_recommendation p age).stocks = max 20 (min 80 (baseStocks p + 10))) ∧
    (30 ≤ age → age < 50 →
      (get_portfolio_recommendation p age).stocks = max 20 (min 80 (baseStocks p + 0))) ∧
    (50 ≤ age →
      (get_portfolio_recommendation p age).stocks = max 20 (min 80 (baseStocks p - 10))) ∧
    (get_portfolio_recommendation p age).bonds =
      100 - (get_portfolio_recommendation p age).stocks - baseCash p ∧
    (get_portfolio_recommendation p age).cash = baseCash p ∧
    (baseStocks p, baseBonds p, baseCash p) =
      (match p with
       | .conservative => ((30 : ℤ), (60 : ℤ), (10 : ℤ))
       | .moderate => (50, 40, 10)
       | .aggressive => (70, 20, 10)) ∧
    get_portfolio_recommendation RiskProfile.aggressive 25 = ⟨80, 10, 10⟩ ∧
    get_portfolio_recommendation RiskProfile.conservative 60 = ⟨20, 70, 10⟩ := by
  refine ⟨?_, ?_, ?_, rfl, rfl, ?_, by decide, by decide⟩
  · intro h
    simp [get_portfolio_recommendation, stock_adjustment, h]
  · intro h1 h2
    simp [get_portfolio_recommendation, stock_adjustment, Nat.not_lt.mpr h1, h2]
  · intro h
    have h1 : ¬ age < 30 := by omega
    have h2 : ¬ age < 50 := by omega
    simp [get_portfolio_recommendation, stock_adjustment, h1, h2]
    ring_nf
  · cases p <;> rfl

/-- C3 witness at the concrete input aggressive, age 25. -/
theorem C3_recommendation_rule_witness :
    (get_portfolio_recommendation RiskProfile.aggressive 25).stocks =
      max 20 (min 80 (baseStocks RiskProfile.aggressive + 10)) :=
  (C3_recommendation_rule RiskProfile.aggressive 25).1 (by norm_num)

/-! ## Structural properties of the amortization loop -/

/-- Every record emitted by the loop decomposes its payment as
principal + interest, for any parameters. -/
lemma amortAux_payment_decomp (r : ℚ) :
    ∀ (k month : ℕ) (monthly_payment balance : ℚ),
      ∀ e ∈ amortAux r k month monthly_payment balance,
        e.payment = e.principal + e.interest := by
  intro k
  induction k with
  | zero => intro month mp b e he; simp [amortAux] at he
  | succ k ih =>
    intro month mp b e he
    simp only [amortAux] at he
    split_ifs at he with hc hb hb
    · rcases List.mem_singleton.mp he with rfl
      simp
    · exact absurd (le_of_eq (sub_self b)) hb
    · rcases List.mem_singleton.mp he with rfl
      simp
    · rcases List.mem_cons.mp he with he | he
      · subst he; simp
      · exact ih (month + 1) mp (b - (mp - b * r)) e he

/-- The loop emits at most as many records as it has remaining iterations. -/
lemma amortAux_length_le (r : ℚ) :
    ∀ (k month : ℕ) (monthly_payment balance : ℚ),
      (amortAux r k month monthly_payment balance).length ≤ k := by
  intro k
  induction k with
  | zero => intro month mp b; simp [amortAux]
  | succ k ih =>
    intro month mp b
    simp only [amortAux]
    split_ifs with hc hb hb
    · simp
    · exact absurd (le_of_eq (sub_self b)) hb
    · simp
    · simpa [List.length_cons] using ih (month + 1) mp (b - (mp - b * r))

/-- The loop follows the per-period recurrence of the source for its level
payment: the clamp branch zeroes the balance and therefore breaks, so the
level payment threaded into later periods is never the mutated one. -/
lemma amortAux_followsRecurrence (r : ℚ) :
    ∀ (k month : ℕ) (monthly_payment balance : ℚ),
      followsRecurrence monthly_payment r balance
        (amortAux r k month monthly_payment balance) := by
  intro k
  induction k with
  | zero => intro month mp b; simp [amortAux, followsRecurrence]
  | succ k ih =>
    intro month mp b
    simp only [amortAux]
    split_ifs with hc hb hb
    · -- clamp branch, loop breaks with zero balance
      refine ⟨rfl, Or.inl ⟨hc, rfl, rfl⟩, rfl, fun _ => rfl, ?_⟩
      simp [followsRecurrence]
    · -- clamp branch with the break test failing is impossible
      exact absurd (by simp) hb
    · -- no clamp, balance exhausted, loop breaks
      refine ⟨rfl, Or.inr ⟨hc, rfl, rfl⟩, rfl, fun _ => rfl, ?_⟩
      simp [followsRecurrence]
    · -- no clamp, loop continues with the unchanged level payment
      exact ⟨rfl, Or.inr ⟨hc, rfl, rfl⟩, rfl, fun h => absurd h hb,
        ih (month + 1) mp (b - (mp - b * r))⟩

/-! ## Claims C4 and C10 -/

/-- C4: for every loan input, the schedule computes each period by
interest = balance * r and principal = payment - interest, clamps the
principal to the remaining balance (recording that period's payment as
principal + interest), stops emitting as soon as the balance reaches 0, and
has length at most termYears * 12. -/
theorem C4_schedule_recurrence (loan_amount interest_rate : ℚ) (loan_term : ℕ) :
    (buildSchedule loan_amount interest_rate loan_term).length ≤ loan_term * 12 ∧
    followsRecurrence (loan_monthly_payment loan_amount interest_rate loan_term)
      (interest_rate / 100 / 12) loan_amount
      (buildSchedule loan_amount interest_rate loan_term) :=
  ⟨amortAux_length_le _ _ _ _ _, amortAux_followsRecurrence _ _ _ _ _⟩

/-- C10: in every record of the amortization schedule, the clamped final
record included, the recorded payment equals principal plus interest. -/
theorem C10_payment_decomposition (loan_amount interest_rate : ℚ) (loan_term : ℕ) :
    ∀ e ∈ buildSchedule loan_amount interest_rate loan_term,
      e.payment = e.principal + e.interest :=
  amortAux_payment_decomp _ _ _ _ _

/-- One unclamped, non-terminal step of the schedule loop. -/
lemma amortAux_cons_step (r : ℚ) (k month : ℕ) (mp b : ℚ)
    (h1 : ¬ mp - b * r > b) (h2 : ¬ b - (mp - b * r) ≤ 0) :
    amortAux r (k + 1) month mp b =
      ⟨month, mp, mp - b * r, b * r, b - (mp - b * r)⟩ ::
        amortAux r k (month + 1) mp (b - (mp - b * r)) := by
  simp only [amortAux]
  rw [if_neg h1, if_neg h1, if_neg h2]

/-- The schedule of a 1200 loan at rate 0 over 1 year starts with the record
(month 1, payment 100, principal 100, interest 0, balance 1100). -/
lemma buildSchedule_1200_first :
    buildSchedule 1200 0 1 =
      (⟨1, 100, 100, 0, 1100⟩ : PaymentRecord) :: amortAux 0 11 2 100 1100 := by
  have hp : loan_monthly_payment 1200 0 1 = 100 := by
    norm_num [loan_monthly_payment]
  have hsch : buildSchedule 1200 0 1 = amortAux 0 12 1 100 1200 := by
    rw [buildSchedule, create_amortization_schedule, hp]
    norm_num
  rw [hsch, show (12 : ℕ) = 11 + 1 from rfl,
    amortAux_cons_step 0 11 1 100 1200 (by norm_num) (by norm_num)]
  norm_num

/-- C10 witness: the first record of the schedule for a 1200 loan at rate 0
over 1 year. -/
theorem C10_payment_decomposition_witness :
    (⟨1, 100, 100, 0, 1100⟩ : PaymentRecord).payment =
      (⟨1, 100, 100, 0, 1100⟩ : PaymentRecord).principal +
      (⟨1, 100, 100, 0, 1100⟩ : PaymentRecord).interest :=
  C10_payment_decomposition 1200 0 1 ⟨1, 100, 100, 0, 1100⟩
    (by rw [buildSchedule_1200_first]; exact List.mem_cons_self _ _)

/-! ## Arithmetic helpers -/

lemma one_le_pow_q {q : ℚ} (h : 1 ≤ q) (n : ℕ) : 1 ≤ q ^ n := by
  induction n with
  | zero => simp
  | succ n ih => rw [pow_succ]; nlinarith

lemma pow_le_pow_q {q : ℚ} (h : 1 ≤ q) {a b : ℕ} (hab : a ≤ b) : q ^ a ≤ q ^ b := by
  obtain ⟨c, rfl⟩ := Nat.exists_eq_add_of_le hab
  rw [pow_add]
  have h1 := one_le_pow_q h a
  have h2 := one_le_pow_q h c
  nlinarith

lemma one_lt_pow_q {q : ℚ} (h : 1 < q) {n : ℕ} (hn : n ≠ 0) : 1 < q ^ n := by
  induction n with
  | zero => cases hn rfl
  | succ m ih =>
    rcases Nat.eq_zero_or_pos m with hm | hm
    · subst hm; simpa using h
    · have h1 := ih (by omega)
      rw [pow_succ]; nlinarith

/-! ## Pointwise formulas for the growth chart -/

lemma growthPoint_period (P C r : ℚ) (y : ℕ) : (growthPoint P C r y).period = y := by
  simp only [growthPoint]
  split_ifs <;> rfl

lemma growthPoint_principalValue (P C r : ℚ) (y : ℕ) :
    (growthPoint P C r y).principalValue = P * (1 + r) ^ (y * 12) := by
  simp only [growthPoint]
  split_ifs with h h2
  · rw [h, pow_zero, mul_one]
  · rfl
  · rfl

lemma growthPoint_contributionValue (P C r : ℚ) (y : ℕ) :
    (growthPoint P C r y).contributionValue =
      if r > 0 then C * (((1 + r) ^ (y * 12) - 1) / r)
      else C * ((y * 12 : ℕ) : ℚ) := by
  simp only [growthPoint]
  split_ifs with h hr
  · rw [h, pow_zero]
    simp
  · rw [h]
    simp
  · rfl
  · rfl

lemma growthPoint_totalValue (P C r : ℚ) (y : ℕ) :
    (growthPoint P C r y).totalValue =
      (growthPoint P C r y).principalValue + (growthPoint P C r y).contributionValue := by
  simp only [growthPoint]
  split_ifs <;> simp

lemma chart_getElem (P C rate : ℚ) (years y : ℕ) (hy : y < years + 1) :
    (create_compound_interest_chart P C rate years)[y]? =
      some (growthPoint P C (rate / 100 / 12) y) := by
  simp [create_compound_interest_chart, List.getElem?_map, List.getElem?_range, hy]

lemma chart_getElem_inv (P C rate : ℚ) (years i : ℕ) (pt : GrowthPoint)
    (h : (create_compound_interest_chart P C rate years)[i]? = some pt) :
    i < years + 1 ∧ pt = growthPoint P C (rate / 100 / 12) i := by
  by_cases hi : i < years + 1
  · rw [chart_getElem P C rate years i hi] at h
    exact ⟨hi, (Option.some.inj h).symm⟩
  · exfalso
    rw [List.getElem?_eq_none] at h
    · exact Option.noConfusion h
    · simp only [create_compound_interest_chart, List.length_map, List.length_range]
      omega

lemma growthPoint_nonneg (P C r : ℚ) (hP : 0 ≤ P) (hC : 0 ≤ C) (hr : 0 ≤ r) (y : ℕ) :
    0 ≤ (growthPoint P C r y).principalValue ∧
    0 ≤ (growthPoint P C r y).contributionValue ∧
    0 ≤ (growthPoint P C r y).totalValue := by
  have hq : (0 : ℚ) ≤ 1 + r := by linarith
  have h1 : 0 ≤ (growthPoint P C r y).principalValue := by
    rw [growthPoint_principalValue]
    exact mul_nonneg hP (pow_nonneg hq _)
  have h2 : 0 ≤ (growthPoint P C r y).contributionValue := by
    rw [growthPoint_contributionValue]
    split_ifs with h
    · have := one_le_pow_q (by linarith : (1 : ℚ) ≤ 1 + r) (y * 12)
      exact mul_nonneg hC (div_nonneg (by linarith) (le_of_lt h))
    · exact mul_nonneg hC (Nat.cast_nonneg _)
  refine ⟨h1, h2, ?_⟩
  rw [growthPoint_totalValue]
  exact add_nonneg h1 h2

lemma growthPoint_total_mono (P C r : ℚ) (hP : 0 ≤ P) (hC : 0 ≤ C) (hr : 0 ≤ r) (y : ℕ) :
    (growthPoint P C r y).totalValue ≤ (growthPoint P C r (y + 1)).totalValue := by
  have hq1 : (1 : ℚ) ≤ 1 + r := by linarith
  rw [growthPoint_totalValue, growthPoint_totalValue,
    growthPoint_principalValue, growthPoint_principalValue,
    growthPoint_contributionValue, growthPoint_contributionValue]
  have hpow : (1 + r) ^ (y * 12) ≤ (1 + r) ^ ((y + 1) * 12) :=
    pow_le_pow_q hq1 (by omega)
  have hpv : P * (1 + r) ^ (y * 12) ≤ P * (1 + r) ^ ((y + 1) * 12) :=
    mul_le_mul_of_nonneg_left hpow hP
  split_ifs with h
  · have hcv : C * (((1 + r) ^ (y * 12) - 1) / r) ≤
        C * (((1 + r) ^ ((y + 1) * 12) - 1) / r) := by
      apply mul_le_mul_of_nonneg_left _ hC
      apply div_le_div_of_nonneg_right ?_ (le_of_lt h)
      linarith
    linarith
  · have hr0 : r = 0 := le_antisymm (not_lt.mp h) hr
    subst hr0
    have hcv : C * (((y * 12 : ℕ) : ℚ)) ≤ C * (((y + 1) * 12 : ℕ) : ℚ) := by
      apply mul_le_mul_of_nonneg_left _ hC
      push_cast
      nlinarith [Nat.cast_nonneg (α := ℚ) y]
    linarith

/-! ## Claims C2, C7, C8, C6 -/

/-- C2: for every input and year y ≤ term, the chart point at index y has
principalValue = principal * (1+r)^(12y), contributionValue given by the
annuity formula for r > 0 and contribution * months for r = 0,
totalValue = principalValue + contributionValue, and the point at y = 0 is
exactly (principal, 0). -/
theorem C2_growth_point_formulas (P C rate : ℚ) (term y : ℕ) (hy : y ≤ term)
    (hrate : 0 ≤ rate) :
    ∃ pt : GrowthPoint,
      (create_compound_interest_chart P C rate term)[y]? = some pt ∧
      pt.principalValue = P * (1 + rate / 100 / 12) ^ (y * 12) ∧
      (0 < rate / 100 / 12 →
        pt.contributionValue =
          C * (((1 + rate / 100 / 12) ^ (y * 12) - 1) / (rate / 100 / 12))) ∧
      (rate / 100 / 12 = 0 → pt.contributionValue = C * ((y * 12 : ℕ) : ℚ)) ∧
      pt.totalValue = pt.principalValue + pt.contributionValue ∧
      (y = 0 → pt.principalValue = P ∧ pt.contributionValue = 0) := by
  refine ⟨growthPoint P C (rate / 100 / 12) y,
    chart_getElem P C rate term y (by omega), ?_, ?_, ?_, ?_, ?_⟩
  · exact growthPoint_principalValue P C (rate / 100 / 12) y
  · intro hr
    rw [growthPoint_contributionValue, if_pos hr]
  · intro hr
    rw [growthPoint_contributionValue, if_neg (by rw [hr]; exact lt_irrefl 0)]
  · exact growthPoint_totalValue P C (rate / 100 / 12) y
  · rintro rfl
    constructor
    · rw [growthPoint_principalValue]
      simp
    · rw [growthPoint_contributionValue]
      split_ifs <;> simp

/-- C2 witness at principal 1, contribution 1, rate 0, term 1, year 1. -/
theorem C2_growth_point_formulas_witness :
    ((create_compound_interest_chart 1 1 0 1)[1]?).map GrowthPoint.principalValue =
      some (1 * (1 + 0 / 100 / 12) ^ (1 * 12)) := by
  obtain ⟨pt, h1, h2, _, _, _, _⟩ :=
    C2_growth_point_formulas 1 1 0 1 1 (le_refl 1) (le_refl 0)
  rw [h1]
  simp [h2]

/-- C7 counterexample: for principal = -1 < 0 the projection does not fail
with an InvalidInput error; it computes and emits the entire series (the
source contains no validation at all, the UI widget bounds are the only
guard). -/
theorem C7_no_validation_counterexample :
    ((-1 : ℚ) < 0) ∧
    create_compound_interest_chart (-1) 0 0 1 =
      [⟨0, -1, 0, -1⟩, ⟨1, -1, 0, -1⟩] := by
  constructor
  · norm_num
  · norm_num [create_compound_interest_chart, growthPoint, List.range_succ]

/-- C7 amended: the growth projection never fails; for every input, negative
or not, it returns the full series of term + 1 points. -/
theorem C7_projection_total (P C rate : ℚ) (years : ℕ) :
    (create_compound_interest_chart P C rate years).length = years + 1 := by
  simp [create_compound_interest_chart]

/-- C8: given non-negative inputs, the growth series has exactly term + 1
points ordered by ascending period, every value is non-negative, and the
totalValue sequence is monotonically non-decreasing. -/
theorem C8_series_shape (P C rate : ℚ) (term : ℕ)
    (hP : 0 ≤ P) (hC : 0 ≤ C) (hrate : 0 ≤ rate) :
    (create_compound_interest_chart P C rate term).length = term + 1 ∧
    (∀ (i : ℕ) (pt : GrowthPoint),
      (create_compound_interest_chart P C rate term)[i]? = some pt →
      pt.period = i) ∧
    (∀ pt ∈ create_compound_interest_chart P C rate term,
      0 ≤ pt.principalValue ∧ 0 ≤ pt.contributionValue ∧ 0 ≤ pt.totalValue) ∧
    (∀ (i : ℕ) (a b : GrowthPoint),
      (create_compound_interest_chart P C rate term)[i]? = some a →
      (create_compound_interest_chart P C rate term)[i + 1]? = some b →
      a.totalValue ≤ b.totalValue) := by
  have hr : (0 : ℚ) ≤ rate / 100 / 12 :=
    div_nonneg (div_nonneg hrate (by norm_num)) (by norm_num)
  refine ⟨by simp [create_compound_interest_chart], ?_, ?_, ?_⟩
  · intro i pt h
    obtain ⟨-, rfl⟩ := chart_getElem_inv P C rate term i pt h
    exact growthPoint_period P C (rate / 100 / 12) i
  · intro pt hpt
    obtain ⟨y, -, rfl⟩ := List.mem_map.mp hpt
    exact growthPoint_nonneg P C (rate / 100 / 12) hP hC hr y
  · intro i a b ha hb
    obtain ⟨-, rfl⟩ := chart_getElem_inv P C rate term i a ha
    obtain ⟨-, rfl⟩ := chart_getElem_inv P C rate term (i + 1) b hb
    exact growthPoint_total_mono P C (rate / 100 / 12) hP hC hr i

/-- C8 witness: length of the series at principal 1, contribution 1, rate 0,
term 1. -/
theorem C8_series_shape_witness :
    (create_compound_interest_chart 1 1 0 1).length = 1 + 1 :=
  (C8_series_shape 1 1 0 1 (by norm_num) (by norm_num) (by norm_num)).1

/-- C6 counterexample: at principal 0, contribution 0 the summary computation
hits the unguarded division `total_interest / total_contributions` of the
source (line 49) and fails with a ZeroDivisionError; no summary with
roiPct = 0 is returned. -/
theorem C6_division_error_counterexample :
    compound_interest_calculator 0 0 0 1 = none ∧
    ¬ ∃ s : GrowthSummary, compound_interest_calculator 0 0 0 1 = some s ∧
      s.roiPct = 0 := by
  have h : compound_interest_calculator 0 0 0 1 = none := by
    simp only [compound_interest_calculator]
    rw [if_pos (by norm_num)]
  refine ⟨h, ?_⟩
  rintro ⟨s, hs, -⟩
  rw [h] at hs
  exact Option.noConfusion hs

/-- C6 amended: the summary returns totalContributed, totalInterest and
roiPct by the stated formulas whenever totalContributed is non-zero, and
fails with a division error (rather than reporting roiPct = 0) when
totalContributed = 0. -/
theorem C6_summary_behavior (P C rate : ℚ) (term : ℕ) :
    (P + C * ((term * 12 : ℕ) : ℚ) = 0 →
      compound_interest_calculator P C rate term = none) ∧
    (P + C * ((term * 12 : ℕ) : ℚ) ≠ 0 →
      ∃ s : GrowthSummary, compound_interest_calculator P C rate term = some s ∧
        s.totalContributed = P + C * ((term * 12 : ℕ) : ℚ) ∧
        s.totalInterest = s.finalValue - s.totalContributed ∧
        s.roiPct = s.totalInterest / s.totalContributed * 100) := by
  constructor
  · intro h
    simp only [compound_interest_calculator]
    rw [if_pos h]
  · intro h
    simp only [compound_interest_calculator]
    rw [if_neg h]
    exact ⟨_, rfl, rfl, rfl, rfl⟩

/-- C6 witness at principal 10000, contribution 500, rate 0, term 1, where
totalContributed = 16000 is non-zero. -/
theorem C6_summary_behavior_witness :
    ∃ s : GrowthSummary, compound_interest_calculator 10000 500 0 1 = some s ∧
      s.totalContributed = 10000 + 500 * ((1 * 12 : ℕ) : ℚ) ∧
      s.totalInterest = s.finalValue - s.totalContributed ∧
      s.roiPct = s.totalInterest / s.totalContributed * 100 :=
  (C6_summary_behavior 10000 500 0 1).2 (by norm_num)

/-! ## The closed-form loop invariant of the amortization schedule

For a positive monthly rate r, with q = 1 + r, the running balance b with k
periods left under level payment `mp` satisfies b * r * q^k = mp * (q^k - 1).
This invariant is preserved by the loop, forces the clamp branch never to
fire, and drives the balance to exactly 0 at the last period. -/

lemma amortAux_pos_spec (r : ℚ) (hr : 0 < r) (n : ℕ) :
    ∀ (month : ℕ) (mp b : ℚ), 0 < mp →
      b * (r * (1 + r) ^ (n + 1)) = mp * ((1 + r) ^ (n + 1) - 1) →
      (amortAux r (n + 1) month mp b).length = n + 1 ∧
      ((amortAux r (n + 1) month mp b).map PaymentRecord.principal).sum = b ∧
      balancesChain b (amortAux r (n + 1) month mp b) ∧
      (∀ e ∈ amortAux r (n + 1) month mp b, 0 ≤ e.balance) ∧
      (∃ last, (amortAux r (n + 1) month mp b).getLast? = some last ∧
        last.balance = 0) := by
  induction n with
  | zero =>
    intro month mp b hmp hinv
    rw [pow_one] at hinv
    have hbp : b * (1 + r) = mp := by
      apply mul_right_cancel₀ (ne_of_gt hr)
      calc b * (1 + r) * r = b * (r * (1 + r)) := by ring
        _ = mp * ((1 + r) - 1) := hinv
        _ = mp * r := by ring
    have hb_pos : 0 < b := by nlinarith
    have hp0 : mp - b * r = b := by linarith
    simp only [amortAux]
    rw [if_neg (not_lt.mpr (le_of_eq hp0)), if_neg (not_lt.mpr (le_of_eq hp0)),
      if_pos (show b - (mp - b * r) ≤ 0 by rw [hp0]; simp)]
    refine ⟨by simp, ?_, ?_, ?_, ?_⟩
    · simp only [List.map_cons, List.map_nil, List.sum_cons, List.sum_nil]
      show mp - b * r + 0 = b
      linarith
    · refine ⟨show b - (mp - b * r) ≤ b by linarith, trivial⟩
    · intro e he
      rw [List.mem_singleton] at he
      subst he
      show (0 : ℚ) ≤ b - (mp - b * r)
      linarith
    · exact ⟨_, rfl, show b - (mp - b * r) = 0 by linarith⟩
  | succ m ih =>
    intro month mp b hmp hinv
    have hq0 : (0 : ℚ) < 1 + r := by linarith
    have hq1 : (1 : ℚ) < 1 + r := by linarith
    have hpow_pos : (0 : ℚ) < (1 + r) ^ (m + 1 + 1) := pow_pos hq0 _
    have hpow1 : (1 : ℚ) < (1 + r) ^ (m + 1 + 1) := one_lt_pow_q hq1 (by omega)
    have hpow1b : (1 : ℚ) < (1 + r) ^ (m + 1) := one_lt_pow_q hq1 (by omega)
    have hb_pos : 0 < b := by
      nlinarith [mul_pos hr hpow_pos, mul_pos hmp (sub_pos.mpr hpow1)]
    have hq_lt : (1 + r) < (1 + r) ^ (m + 1 + 1) := by
      calc (1 + r) = (1 + r) * 1 := by ring
        _ < (1 + r) * (1 + r) ^ (m + 1) := by nlinarith
        _ = (1 + r) ^ (m + 1 + 1) := by rw [pow_succ]; ring
    have hdiff : b * (1 + r) * ((1 + r) ^ (m + 1 + 1) - 1) -
        mp * ((1 + r) ^ (m + 1 + 1) - 1) =
        b * ((1 + r) ^ (m + 1 + 1) - (1 + r)) := by
      linear_combination hinv
    have hkey : mp < b * (1 + r) := by
      have h1 : 0 < b * ((1 + r) ^ (m + 1 + 1) - (1 + r)) :=
        mul_pos hb_pos (by linarith)
      have h2 : mp * ((1 + r) ^ (m + 1 + 1) - 1) <
          b * (1 + r) * ((1 + r) ^ (m + 1 + 1) - 1) := by linarith
      exact lt_of_mul_lt_mul_right h2 (by linarith)
    have hkey2 : mp < b + b * r := by nlinarith [hkey]
    have hnc : ¬ (mp - b * r > b) := by
      intro hcon
      exact absurd hkey2 (not_lt.mpr (by linarith))
    have hp0_pos : 0 < mp - b * r := by
      nlinarith [hinv, hpow_pos, hmp]
    have hnb_pos : 0 < b - (mp - b * r) := by linarith
    have hinv2 : (b - (mp - b * r)) * (r * (1 + r) ^ (m + 1)) =
        mp * ((1 + r) ^ (m + 1) - 1) := by
      rw [pow_succ] at hinv
      linear_combination hinv
    rw [amortAux_cons_step r (m + 1) month mp b hnc (not_le.mpr hnb_pos)]
    obtain ⟨hlen, hsum, hchain, hnn, last, hl1, hl2⟩ :=
      ih (month + 1) mp (b - (mp - b * r)) hmp hinv2
    refine ⟨?_, ?_, ?_, ?_, ?_⟩
    · rw [List.length_cons, hlen]
    · simp only [List.map_cons, List.sum_cons]
      show mp - b * r + (List.map PaymentRecord.principal
        (amortAux r (m + 1) (month + 1) mp (b - (mp - b * r)))).sum = b
      rw [hsum]
      ring
    · exact ⟨show b - (mp - b * r) ≤ b by linarith, hchain⟩
    · intro e he
      rcases List.mem_cons.mp he with rfl | he2
      · show (0 : ℚ) ≤ b - (mp - b * r)
        linarith
      · exact hnn e he2
    · have htail : amortAux r (m + 1) (month + 1) mp (b - (mp - b * r)) ≠ [] := by
        intro hcon
        rw [hcon] at hlen
        simp at hlen
      rcases hhead : amortAux r (m + 1) (month + 1) mp (b - (mp - b * r))
        with _ | ⟨hd, tl⟩
      · exact absurd hhead htail
      · rw [hhead] at hl1
        refine ⟨last, ?_, hl2⟩
        rw [List.getLast?_cons_cons]
        exact hl1

/-- The zero-rate invariant: the balance with k periods left is mp * k. -/
lemma amortAux_zero_spec (n : ℕ) :
    ∀ (month : ℕ) (mp b : ℚ), 0 < mp →
      b = mp * ((n + 1 : ℕ) : ℚ) →
      (amortAux 0 (n + 1) month mp b).length = n + 1 ∧
      ((amortAux 0 (n + 1) month mp b).map PaymentRecord.principal).sum = b ∧
      balancesChain b (amortAux 0 (n + 1) month mp b) ∧
      (∀ e ∈ amortAux 0 (n + 1) month mp b, 0 ≤ e.balance) ∧
      (∃ last, (amortAux 0 (n + 1) month mp b).getLast? = some last ∧
        last.balance = 0) := by
  induction n with
  | zero =>
    intro month mp b hmp hb
    have hb1 : b = mp := by rw [hb]; push_cast; ring
    have hp0 : mp - b * 0 = b := by rw [hb1]; ring
    simp only [amortAux]
    rw [if_neg (not_lt.mpr (le_of_eq hp0)), if_neg (not_lt.mpr (le_of_eq hp0)),
      if_pos (show b - (mp - b * 0) ≤ 0 by rw [hp0]; simp)]
    refine ⟨by simp, ?_, ?_, ?_, ?_⟩
    · simp only [List.map_cons, List.map_nil, List.sum_cons, List.sum_nil]
      show mp - b * 0 + 0 = b
      linarith
    · refine ⟨show b - (mp - b * 0) ≤ b by linarith, trivial⟩
    · intro e he
      rw [List.mem_singleton] at he
      subst he
      show (0 : ℚ) ≤ b - (mp - b * 0)
      linarith
    · exact ⟨_, rfl, show b - (mp - b * 0) = 0 by linarith⟩
  | succ m ih =>
    intro month mp b hmp hb
    have hb' : b = mp * ((m + 1 : ℕ) : ℚ) + mp := by
      rw [hb]
      push_cast
      ring
    have hm1 : (1 : ℚ) ≤ ((m + 1 : ℕ) : ℚ) := by
      push_cast
      linarith [Nat.cast_nonneg (α := ℚ) m]
    have hnc : ¬ (mp - b * 0 > b) := by
      intro hcon
      nlinarith
    have hnb : 0 < b - (mp - b * 0) := by nlinarith
    have hinv2 : b - (mp - b * 0) = mp * ((m + 1 : ℕ) : ℚ) := by
      rw [hb']
      ring
    rw [amortAux_cons_step 0 (m + 1) month mp b hnc (not_le.mpr hnb)]
    obtain ⟨hlen, hsum, hchain, hnn, last, hl1, hl2⟩ :=
      ih (month + 1) mp (b - (mp - b * 0)) hmp hinv2
    refine ⟨?_, ?_, ?_, ?_, ?_⟩
    · rw [List.length_cons, hlen]
    · simp only [List.map_cons, List.sum_cons]
      show mp - b * 0 + (List.map PaymentRecord.principal
        (amortAux 0 (m + 1) (month + 1) mp (b - (mp - b * 0)))).sum = b
      rw [hsum]
      ring
    · exact ⟨show b - (mp - b * 0) ≤ b by linarith, hchain⟩
    · intro e he
      rcases List.mem_cons.mp he with rfl | he2
      · show (0 : ℚ) ≤ b - (mp - b * 0)
        linarith
      · exact hnn e he2
    · have htail : amortAux 0 (m + 1) (month + 1) mp (b - (mp - b * 0)) ≠ [] := by
        intro hcon
        rw [hcon] at hlen
        simp at hlen
      rcases hhead : amortAux 0 (m + 1) (month + 1) mp (b - (mp - b * 0))
        with _ | ⟨hd, tl⟩
      · exact absurd hhead htail
      · rw [hhead] at hl1
        refine ⟨last, ?_, hl2⟩
        rw [List.getLast?_cons_cons]
        exact hl1

/-! ## Claim C1 -/

/-- C1: for every loan input with loanAmount > 0, rate ≥ 0 and term ≥ 1, the
principal portions of the schedule sum to the loan amount within 1e-6, the
remaining balance is non-increasing from record to record and never negative,
and the final record's remaining balance is 0 within the same tolerance (the
exact-arithmetic model realises both tolerances as exact equalities). -/
theorem C1_schedule_invariants (L rate : ℚ) (term : ℕ)
    (hL : 0 < L) (hrate : 0 ≤ rate) (hterm : 1 ≤ term) :
    |((buildSchedule L rate term).map PaymentRecord.principal).sum - L| ≤ 1 / 1000000 ∧
    balancesChain L (buildSchedule L rate term) ∧
    (∀ e ∈ buildSchedule L rate term, 0 ≤ e.balance) ∧
    (∃ last, (buildSchedule L rate term).getLast? = some last ∧
      |last.balance| ≤ 1 / 1000000) := by
  have hN12 : term * 12 - 1 + 1 = term * 12 := by omega
  have main :
      ((buildSchedule L rate term).map PaymentRecord.principal).sum = L ∧
      balancesChain L (buildSchedule L rate term) ∧
      (∀ e ∈ buildSchedule L rate term, 0 ≤ e.balance) ∧
      (∃ last, (buildSchedule L rate term).getLast? = some last ∧
        last.balance = 0) := by
    rcases eq_or_lt_of_le hrate with hr0 | hrpos
    · -- zero annual rate
      have hrr : rate / 100 / 12 = 0 := by rw [← hr0]; norm_num
      have hpay : loan_monthly_payment L rate term = L / ((term * 12 : ℕ) : ℚ) := by
        simp only [loan_monthly_payment]
        rw [hrr, if_neg (lt_irrefl (0 : ℚ))]
      have hNpos : (0 : ℚ) < ((term * 12 : ℕ) : ℚ) := by
        exact_mod_cast (show 0 < term * 12 by omega)
      have hpay_pos : 0 < L / ((term * 12 : ℕ) : ℚ) := div_pos hL hNpos
      have hinvz : L = L / ((term * 12 : ℕ) : ℚ) * ((term * 12 - 1 + 1 : ℕ) : ℚ) := by
        rw [hN12, div_mul_cancel₀ L (ne_of_gt hNpos)]
      obtain ⟨hlen, hsum, hchain, hnn, hlast⟩ :=
        amortAux_zero_spec (term * 12 - 1) 1 (L / ((term * 12 : ℕ) : ℚ)) L
          hpay_pos hinvz
      rw [hN12] at hsum hchain hnn hlast
      have hfold : buildSchedule L rate term =
          amortAux 0 (term * 12) 1 (L / ((term * 12 : ℕ) : ℚ)) L := by
        rw [buildSchedule, create_amortization_schedule, hpay, hrr]
      rw [hfold]
      exact ⟨hsum, hchain, hnn, hlast⟩
    · -- positive annual rate
      have hr : 0 < rate / 100 / 12 := by positivity
      have hq1 : (1 : ℚ) < 1 + rate / 100 / 12 := by linarith
      have hQ1 : 1 < (1 + rate / 100 / 12) ^ (term * 12) :=
        one_lt_pow_q hq1 (by omega)
      have hden_pos : 0 < (1 + rate / 100 / 12) ^ (term * 12) - 1 := by linarith
      have hpay : loan_monthly_payment L rate term =
          L * (rate / 100 / 12 * (1 + rate / 100 / 12) ^ (term * 12)) /
            ((1 + rate / 100 / 12) ^ (term * 12) - 1) := by
        simp only [loan_monthly_payment]
        rw [if_pos hr]
      have hpay_pos : 0 < loan_monthly_payment L rate term := by
        rw [hpay]
        exact div_pos (mul_pos hL (mul_pos hr (pow_pos (by linarith) _))) hden_pos
      have hinvp : L * (rate / 100 / 12 *
            (1 + rate / 100 / 12) ^ (term * 12 - 1 + 1)) =
          loan_monthly_payment L rate term *
            ((1 + rate / 100 / 12) ^ (term * 12 - 1 + 1) - 1) := by
        rw [hN12, hpay, div_mul_cancel₀ _ (ne_of_gt hden_pos)]
      obtain ⟨hlen, hsum, hchain, hnn, hlast⟩ :=
        amortAux_pos_spec (rate / 100 / 12) hr (term * 12 - 1) 1
          (loan_monthly_payment L rate term) L hpay_pos hinvp
      rw [hN12] at hsum hchain hnn hlast
      have hfold : buildSchedule L rate term =
          amortAux (rate / 100 / 12) (term * 12) 1
            (loan_monthly_payment L rate term) L := by
        rw [buildSchedule, create_amortization_schedule]
      rw [hfold]
      exact ⟨hsum, hchain, hnn, hlast⟩
  obtain ⟨hsum, hchain, hnn, last, hl1, hl2⟩ := main
  refine ⟨?_, hchain, hnn, last, hl1, ?_⟩
  · rw [hsum, sub_self, abs_zero]
    norm_num
  · rw [hl2, abs_zero]
    norm_num

/-- C1 witness: the principal portions of the schedule for a 1200 loan at
rate 0 over 1 year sum to the loan amount within tolerance. -/
theorem C1_schedule_invariants_witness :
    |((buildSchedule 1200 0 1).map PaymentRecord.principal).sum - 1200| ≤
      1 / 1000000 :=
  (C1_schedule_invariants 1200 0 1 (by norm_num) (by norm_num) (by norm_num)).1
